import Mathlib

/-!
Verification of the song-catalog service (`src/api.py`, `src/config.py`).

The service keeps songs in a single SQLite table, populated from a
column-oriented ("attribute-map") JSON snapshot.  This file gives a shallow
embedding of the core operations — `should_reload_data`, `normalize_json`,
`load_data`, `rate_song`, `get_all_songs`, `search_by_title` — and proves
the spec's properties about them.

Modelling choices:
* JSON scalars are `Val` (strings and rationals; the program only stores
  and compares them, so rationals model its floats faithfully).
* Python dicts are association lists with unique keys in insertion order;
  `dictSet` is dict assignment (overwrite in place, append when new), and
  `recGet` / `hasKey` are `dict.get` / `in`.
* The SQLite `songs` table is a `List Row` in row-scan order.  Inserts
  append; `load_data`'s single `commit` at the end means that any insert
  failure (modelled by the `failAt` fault parameter) leaves the previously
  committed table in place (no commit happens, so closing the connection
  rolls the partial work back).
* `should_reload_data`'s filesystem probes are a small record of the facts
  the function reads: file existence, the `COUNT(*)` result (`none` when
  the table is missing/unreadable), and the two modification times.
-/

namespace Vivpro

/-- A scalar value stored in a snapshot cell or a table column. -/
inductive Val where
  | str : String → Val
  | num : ℚ → Val
deriving DecidableEq

/-- A snapshot attribute sub-map (`json_data[attr]`): stringified
positional index ↦ value, in insertion order. -/
abbrev Submap := List (String × Val)

/-- A parsed snapshot (`json_data`): attribute name ↦ sub-map, in
insertion order.  A Python dict, so top-level keys are unique. -/
abbrev Snapshot := List (String × Submap)

/-- A normalized song dict (`song` in `normalize_json`): key ↦ value,
where the value `none` is Python `None`. -/
abbrev SongDict := List (String × Option Val)

/-- Python `values.get(str(i))` on a sub-map: the value at the key, else
`None` (here: `none`).  Keys of a dict are unique, so first match is the
match. -/
def dictGet : Submap → String → Option Val
  | [], _ => none
  | p :: rest, k => if p.1 == k then some p.2 else dictGet rest k

/-- Python `song.get(k)` on a song dict: a stored `None` and a missing key
both give `None`. -/
def recGet : SongDict → String → Option Val
  | [], _ => none
  | p :: rest, k => if p.1 == k then p.2 else recGet rest k

/-- Python `k in song`: key presence (distinct from `recGet`, which
conflates a stored `None` with absence, exactly as `dict.get` does). -/
def hasKey (d : SongDict) (k : String) : Bool :=
  d.any (fun p => p.1 == k)

/-- Python dict assignment `song[k] = v`: overwrite the existing entry in
place, else append a new one. -/
def dictSet : SongDict → String → Option Val → SongDict
  | [], k, v => [(k, v)]
  | p :: rest, k, v => if p.1 == k then (k, v) :: rest else p :: dictSet rest k v

/-- The attribute loop of `normalize_json`:
`for attr, values in json_data.items(): song[attr] = values.get(str(i))`. -/
def applyAttrs (j : Snapshot) (i : Nat) (d : SongDict) : SongDict :=
  j.foldl (fun s av => dictSet s av.1 (dictGet av.2 (toString i))) d

/-- The song dict after `normalize_json`'s attribute loop, starting from
`{"index": i}`. -/
def songBase (j : Snapshot) (i : Nat) : SongDict :=
  applyAttrs j i [("index", some (Val.num i))]

/-- One iteration of `normalize_json`'s outer loop: start from
`{"index": i}`, run the attribute loop, then add `"star_rating": 0.0`
when that key is still absent (`if "star_rating" not in song`). -/
def buildSong (j : Snapshot) (i : Nat) : SongDict :=
  if hasKey (songBase j i) "star_rating" then songBase j i
  else songBase j i ++ [("star_rating", some (Val.num 0))]

/-- `normalize_json`: empty/absent input gives `[]`; otherwise the record
count is the size of the first attribute's sub-map and each position `i`
yields `buildSong j i`. -/
def normalize_json (j : Snapshot) : List SongDict :=
  match j with
  | [] => []
  | (_, m0) :: _ => (List.range m0.length).map (buildSong j)

theorem recGet_dictSet_same (d : SongDict) (k : String) (v : Option Val) :
    recGet (dictSet d k v) k = v := by
  induction d with
  | nil => simp [dictSet, recGet]
  | cons p rest ih =>
    by_cases h : p.1 = k
    · simp [dictSet, h, recGet]
    · simpa [dictSet, h, recGet] using ih

theorem recGet_dictSet_other (d : SongDict) (k k' : String) (v : Option Val)
    (h : k' ≠ k) : recGet (dictSet d k v) k' = recGet d k' := by
  induction d with
  | nil => simp [dictSet, recGet, Ne.symm h]
  | cons p rest ih =>
    by_cases hp : p.1 = k
    · simp [dictSet, hp, recGet, Ne.symm h]
    · by_cases hk : p.1 = k'
      · simp [dictSet, hp, recGet, hk, h]
      · simpa [dictSet, hp, recGet, hk] using ih

theorem hasKey_dictSet (d : SongDict) (k k' : String) (v : Option Val) :
    hasKey (dictSet d k v) k' = ((k == k') || hasKey d k') := by
  induction d with
  | nil => simp [dictSet, hasKey, Bool.or_comm, eq_comm]
  | cons p rest ih =>
    by_cases hp : p.1 = k
    · simp [dictSet, hp, hasKey, eq_comm]
    · simp only [dictSet, beq_iff_eq, hp, if_false]
      simp only [hasKey, List.any_cons] at ih ⊢
      rw [ih]
      cases h1 : (p.1 == k') <;> cases h2 : (k == k') <;> simp

theorem recGet_applyAttrs_notmem (j : Snapshot) (i : Nat) (d : SongDict)
    (k : String) (h : ∀ p ∈ j, p.1 ≠ k) :
    recGet (applyAttrs j i d) k = recGet d k := by
  induction j generalizing d with
  | nil => simp [applyAttrs]
  | cons a rest ih =>
    simp only [applyAttrs, List.foldl_cons] at ih ⊢
    rw [ih _ (fun p hp => h p (List.mem_cons_of_mem _ hp))]
    exact recGet_dictSet_other _ _ _ _ (Ne.symm (h a (List.mem_cons_self _ _)))

theorem recGet_applyAttrs_mem (j : Snapshot) (i : Nat) (d : SongDict)
    (k : String) (m : Submap) (hnd : (j.map Prod.fst).Nodup)
    (hm : (k, m) ∈ j) :
    recGet (applyAttrs j i d) k = dictGet m (toString i) := by
  induction j generalizing d with
  | nil => cases hm
  | cons a rest ih =>
    simp only [List.map_cons, List.nodup_cons] at hnd
    rcases List.mem_cons.mp hm with heq | hmem
    · have ha1 : a.1 = k := by rw [← heq]
      have hrest : ∀ p ∈ rest, p.1 ≠ k := by
        intro p hp hpk
        apply hnd.1
        rw [ha1, ← hpk]
        exact List.mem_map_of_mem Prod.fst hp
      simp only [applyAttrs, List.foldl_cons]
      have := recGet_applyAttrs_notmem rest i
        (dictSet d a.1 (dictGet a.2 (toString i))) k hrest
      simp only [applyAttrs] at this
      rw [this, ← heq]
      exact recGet_dictSet_same _ _ _
    · simp only [applyAttrs, List.foldl_cons]
      exact ih _ hnd.2 hmem

theorem hasKey_applyAttrs (j : Snapshot) (i : Nat) (d : SongDict)
    (k : String) :
    hasKey (applyAttrs j i d) k = (j.any (fun p => p.1 == k) || hasKey d k) := by
  induction j generalizing d with
  | nil => simp [applyAttrs]
  | cons a rest ih =>
    simp only [applyAttrs, List.foldl_cons, List.any_cons] at ih ⊢
    rw [ih, hasKey_dictSet]
    cases h1 : (a.1 == k) <;> cases h2 : rest.any (fun p => p.1 == k) <;> simp

theorem recGet_append_left (d e : SongDict) (k : String)
    (h : hasKey d k = true) : recGet (d ++ e) k = recGet d k := by
  induction d with
  | nil => simp [hasKey] at h
  | cons p rest ih =>
    by_cases hp : p.1 = k
    · simp [recGet, hp]
    · have hb : (p.1 == k) = false := by simp [hp]
      simp only [hasKey, List.any_cons, hb, Bool.false_or] at h
      simpa [recGet, hp] using ih (by simpa [hasKey] using h)

theorem recGet_append_right (d e : SongDict) (k : String)
    (h : hasKey d k = false) : recGet (d ++ e) k = recGet e k := by
  induction d with
  | nil => simp [recGet]
  | cons p rest ih =>
    simp only [hasKey, List.any_cons, Bool.or_eq_false_iff, beq_eq_false_iff_ne,
      ne_eq] at h
    simpa [recGet, h.1] using ih (by simpa [hasKey] using h.2)

theorem hasKey_append (d e : SongDict) (k : String) :
    hasKey (d ++ e) k = (hasKey d k || hasKey e k) := by
  simp [hasKey, List.any_append]

theorem hasKey_songBase_mem (j : Snapshot) (i : Nat) (k : String) (m : Submap)
    (hm : (k, m) ∈ j) : hasKey (songBase j i) k = true := by
  rw [songBase, hasKey_applyAttrs]
  have : j.any (fun p => p.1 == k) = true :=
    List.any_eq_true.mpr ⟨(k, m), hm, by simp⟩
  simp [this]

theorem buildSong_recGet_mem (j : Snapshot) (i : Nat) (k : String) (m : Submap)
    (hnd : (j.map Prod.fst).Nodup) (hm : (k, m) ∈ j) :
    recGet (buildSong j i) k = dictGet m (toString i) := by
  have hk := hasKey_songBase_mem j i k m hm
  rw [buildSong]
  by_cases hs : hasKey (songBase j i) "star_rating" = true
  · rw [if_pos hs, songBase]
    exact recGet_applyAttrs_mem j i _ k m hnd hm
  · rw [if_neg hs, recGet_append_left _ _ _ hk, songBase]
    exact recGet_applyAttrs_mem j i _ k m hnd hm

theorem buildSong_index (j : Snapshot) (i : Nat)
    (hidx : ∀ p ∈ j, p.1 ≠ "index") :
    recGet (buildSong j i) "index" = some (Val.num i) := by
  have hbase : recGet (songBase j i) "index" = some (Val.num i) := by
    rw [songBase, recGet_applyAttrs_notmem j i _ _ hidx]
    simp [recGet]
  have hk : hasKey (songBase j i) "index" = true := by
    rw [songBase, hasKey_applyAttrs]
    simp [hasKey]
  rw [buildSong]
  by_cases hs : hasKey (songBase j i) "star_rating" = true
  · rw [if_pos hs]; exact hbase
  · rw [if_neg hs, recGet_append_left _ _ _ hk]; exact hbase

theorem buildSong_star_default (j : Snapshot) (i : Nat)
    (h : ∀ p ∈ j, p.1 ≠ "star_rating") :
    recGet (buildSong j i) "star_rating" = some (Val.num 0) := by
  have hs : hasKey (songBase j i) "star_rating" = false := by
    rw [songBase, hasKey_applyAttrs]
    have : j.any (fun p => p.1 == "star_rating") = false := by
      simp only [List.any_eq_false]
      intro p hp
      simp [h p hp]
    simp [this, hasKey]
  rw [buildSong, if_neg (by simp [hs]), recGet_append_right _ _ _ hs]
  simp [recGet]

theorem buildSong_hasKey_star (j : Snapshot) (i : Nat) :
    hasKey (buildSong j i) "star_rating" = true := by
  rw [buildSong]
  by_cases hs : hasKey (songBase j i) "star_rating" = true
  · rw [if_pos hs]; exact hs
  · rw [if_neg hs, hasKey_append]
    simp [hasKey]

theorem buildSong_hasKey_mem (j : Snapshot) (i : Nat) (k : String) (m : Submap)
    (hm : (k, m) ∈ j) : hasKey (buildSong j i) k = true := by
  have hk := hasKey_songBase_mem j i k m hm
  rw [buildSong]
  by_cases hs : hasKey (songBase j i) "star_rating" = true
  · rw [if_pos hs]; exact hk
  · rw [if_neg hs, hasKey_append, hk]; rfl

theorem normalize_json_nil : normalize_json [] = [] := rfl

theorem normalize_json_length (a0 : String) (m0 : Submap) (rest : Snapshot) :
    (normalize_json ((a0, m0) :: rest)).length = m0.length := by
  simp [normalize_json]

theorem normalize_json_getElem? (a0 : String) (m0 : Submap) (rest : Snapshot)
    (i : Nat) (hi : i < m0.length) :
    (normalize_json ((a0, m0) :: rest))[i]? =
      some (buildSong ((a0, m0) :: rest) i) := by
  simp [normalize_json, List.getElem?_range, hi]

theorem normalize_json_mem (a0 : String) (m0 : Submap) (rest : Snapshot)
    (s : SongDict) :
    s ∈ normalize_json ((a0, m0) :: rest) ↔
      ∃ i, i < m0.length ∧ s = buildSong ((a0, m0) :: rest) i := by
  simp [normalize_json, List.mem_map, List.mem_range, eq_comm]

/-- C2 fails as stated: on the snapshot `{"index": {"0": 7}}` the attribute
loop overwrites the positional `"index"` entry of the song dict, so the
single record (`N = 1`) carries index `7`, which does not lie in `0..N-1`
(that is, it differs from `0`). -/
theorem C2_counterexample :
    (normalize_json [("index", [("0", Val.num 7)])]).length = 1 ∧
    (normalize_json [("index", [("0", Val.num 7)])]).map
      (fun s => recGet s "index") = [some (Val.num 7)] ∧
    (some (Val.num 7) : Option Val) ≠ some (Val.num 0) := by
  refine ⟨rfl, by decide, by decide⟩

/-- **C2** (amended): for every snapshot whose first attribute's sub-map has
`N` entries — provided no top-level attribute is named `"index"`, which would
overwrite the positional index — `normalize_json` yields exactly `N`
records; the record at position `i` carries index `i` (so the indices are
distinct and lie in `0..N-1`); every record carries a `star_rating` key,
equal to `0.0` when no `star_rating` attribute exists in the snapshot; and
an empty (or absent, i.e. `None`) snapshot yields the empty sequence rather
than an error. -/
theorem C2_normalize_shape (j : Snapshot) (a0 : String) (m0 : Submap)
    (rest : Snapshot) (hj : j = (a0, m0) :: rest)
    (hidx : ∀ p ∈ j, p.1 ≠ "index") :
    (normalize_json j).length = m0.length ∧
    (∀ i, i < m0.length →
      ((normalize_json j)[i]?).map (fun s => recGet s "index")
        = some (some (Val.num i))) ∧
    (∀ s ∈ normalize_json j, hasKey s "star_rating" = true) ∧
    ((∀ p ∈ j, p.1 ≠ "star_rating") →
      ∀ s ∈ normalize_json j, recGet s "star_rating" = some (Val.num 0)) ∧
    normalize_json [] = [] := by
  subst hj
  refine ⟨normalize_json_length a0 m0 rest, ?_, ?_, ?_, rfl⟩
  · intro i hi
    rw [normalize_json_getElem? a0 m0 rest i hi, Option.map_some',
      buildSong_index _ i hidx]
  · intro s hs
    rcases (normalize_json_mem a0 m0 rest s).mp hs with ⟨i, hi, rfl⟩
    exact buildSong_hasKey_star _ i
  · intro hstar s hs
    rcases (normalize_json_mem a0 m0 rest s).mp hs with ⟨i, hi, rfl⟩
    exact buildSong_star_default _ i hstar

/-- Witness for C2 (amended) at the spec §8 snapshot
`{"id": {"0": "a", "1": "b"}, "title": {"0": "X", "1": "Y"}}`: the record at
position 1 carries index 1. -/
theorem C2_normalize_shape_witness :
    ((normalize_json [("id", [("0", Val.str "a"), ("1", Val.str "b")]),
        ("title", [("0", Val.str "X"), ("1", Val.str "Y")])])[1]?).map
      (fun s => recGet s "index") = some (some (Val.num 1)) := by
  have h := C2_normalize_shape
    [("id", [("0", Val.str "a"), ("1", Val.str "b")]),
     ("title", [("0", Val.str "X"), ("1", Val.str "Y")])]
    "id" [("0", Val.str "a"), ("1", Val.str "b")]
    [("title", [("0", Val.str "X"), ("1", Val.str "Y")])] rfl (by decide)
  exact h.2.1 1 (by decide)

/-- **C6**: if attribute `k` is present in the snapshot but its sub-map has
no entry at the stringified position `i`, the normalized record at position
`i` still carries `k` as a key (`hasKey` is `true`, never omitted) with the
explicit empty value `none` (Python `None`). -/
theorem C6_missing_attr_not_omitted (j : Snapshot) (a0 : String) (m0 : Submap)
    (rest : Snapshot) (k : String) (m : Submap) (i : Nat)
    (hj : j = (a0, m0) :: rest) (hnd : (j.map Prod.fst).Nodup)
    (hm : (k, m) ∈ j) (hi : i < m0.length)
    (hmiss : dictGet m (toString i) = none) :
    ((normalize_json j)[i]?).map (fun s => (hasKey s k, recGet s k))
      = some (true, none) := by
  subst hj
  rw [normalize_json_getElem? a0 m0 rest i hi, Option.map_some',
    buildSong_hasKey_mem _ i k m hm, buildSong_recGet_mem _ i k m hnd hm,
    hmiss]

/-- Witness for C6 at `{"id": {"0": "test1", "1": "test2"},
"title": {"0": "Song1"}}` (the sparse snapshot of the repository's own
tests): record 1 carries `"title"` with value `None`. -/
theorem C6_missing_attr_not_omitted_witness :
    ((normalize_json [("id", [("0", Val.str "test1"), ("1", Val.str "test2")]),
        ("title", [("0", Val.str "Song1")])])[1]?).map
      (fun s => (hasKey s "title", recGet s "title")) = some (true, none) :=
  C6_missing_attr_not_omitted
    [("id", [("0", Val.str "test1"), ("1", Val.str "test2")]),
     ("title", [("0", Val.str "Song1")])]
    "id" [("0", Val.str "test1"), ("1", Val.str "test2")]
    [("title", [("0", Val.str "Song1")])]
    "title" [("0", Val.str "Song1")] 1 rfl (by decide) (by decide)
    (by decide) (by decide)

/-- **C9**: when the snapshot itself contains a top-level `star_rating`
attribute whose sub-map lacks an entry for position `i`, record `i`'s
`star_rating` is the explicit empty value `none` (Python `None`), not the
`0.0` default — the key is already present in the song dict, so the default
branch is skipped. -/
theorem C9_sparse_star_rating (j : Snapshot) (a0 : String) (m0 : Submap)
    (rest : Snapshot) (m : Submap) (i : Nat)
    (hj : j = (a0, m0) :: rest) (hnd : (j.map Prod.fst).Nodup)
    (hm : ("star_rating", m) ∈ j) (hi : i < m0.length)
    (hmiss : dictGet m (toString i) = none) :
    ((normalize_json j)[i]?).map (fun s => recGet s "star_rating")
      = some none ∧
    (some (none : Option Val) : Option (Option Val))
      ≠ some (some (Val.num 0)) := by
  subst hj
  refine ⟨?_, by decide⟩
  rw [normalize_json_getElem? a0 m0 rest i hi, Option.map_some',
    buildSong_recGet_mem _ i _ m hnd hm, hmiss]

/-- Witness for C9 at `{"id": {"0": "a", "1": "b"},
"star_rating": {"0": 5}}`: record 1's `star_rating` is `None`, not `0.0`. -/
theorem C9_sparse_star_rating_witness :
    ((normalize_json [("id", [("0", Val.str "a"), ("1", Val.str "b")]),
        ("star_rating", [("0", Val.num 5)])])[1]?).map
      (fun s => recGet s "star_rating") = some none :=
  (C9_sparse_star_rating
    [("id", [("0", Val.str "a"), ("1", Val.str "b")]),
     ("star_rating", [("0", Val.num 5)])]
    "id" [("0", Val.str "a"), ("1", Val.str "b")]
    [("star_rating", [("0", Val.num 5)])]
    [("0", Val.num 5)] 1 rfl (by decide) (by decide) (by decide)
    (by decide)).1

/-- The filesystem/store facts `should_reload_data` reads:
`os.path.exists` on the two paths, the `SELECT COUNT(*) FROM songs` result
(`none` when the connect/query raises, i.e. the table is missing or the
store unreadable), and the two `os.path.getmtime` values. -/
structure FsState where
  json_exists : Bool
  db_exists : Bool
  songs_count : Option Nat
  json_mtime : ℚ
  db_mtime : ℚ
deriving DecidableEq

/-- `should_reload_data` from `api.py`: no snapshot → `False`; snapshot but
no store → `True`; store whose `songs` table is empty or unreadable →
`True`; otherwise `True` iff the snapshot's mtime is strictly greater than
the store's. -/
def should_reload_data (fs : FsState) : Bool :=
  if !fs.json_exists then false
  else if !fs.db_exists then true
  else
    match fs.songs_count with
    | none => true
    | some c => if c = 0 then true else decide (fs.json_mtime > fs.db_mtime)

/-- **C1**: `should_reload_data` returns `false` when the snapshot does not
exist; `true` when the snapshot exists and the store does not; `true` when
the store exists but its `songs` table is empty or unreadable; and
otherwise `true` iff the snapshot's last-modified time is strictly greater
than the store's. -/
theorem C1_should_reload (fs : FsState) :
    (fs.json_exists = false → should_reload_data fs = false) ∧
    (fs.json_exists = true → fs.db_exists = false →
      should_reload_data fs = true) ∧
    (fs.json_exists = true → fs.db_exists = true →
      (fs.songs_count = none ∨ fs.songs_count = some 0) →
      should_reload_data fs = true) ∧
    (∀ c : Nat, fs.json_exists = true → fs.db_exists = true →
      fs.songs_count = some c → c ≠ 0 →
      (should_reload_data fs = true ↔ fs.json_mtime > fs.db_mtime)) := by
  obtain ⟨je, de, sc, jm, dm⟩ := fs
  refine ⟨?_, ?_, ?_, ?_⟩
  · intro h; subst h; simp [should_reload_data]
  · intro h1 h2; subst h1; subst h2; simp [should_reload_data]
  · rintro h1 h2 (h3 | h3) <;> subst h1 <;> subst h2 <;> subst h3 <;>
      simp [should_reload_data]
  · intro c h1 h2 h3 h4
    subst h1; subst h2; subst h3
    simp [should_reload_data, h4]

/-- Witness for C1: snapshot and store both present, three songs stored,
snapshot modified at time 1 and store at time 0 → reload. -/
theorem C1_should_reload_witness :
    should_reload_data ⟨true, true, some 3, 1, 0⟩ = true :=
  ((C1_should_reload ⟨true, true, some 3, 1, 0⟩).2.2.2 3 rfl rfl rfl
    (by decide)).mpr (by norm_num)

/-- A row of the `songs` table, one column per field of the `CREATE TABLE`
statement in `init_db`.  Every column except `star_rating` is nullable
(`Option Val`); `star_rating` is a REAL with default 0.0, always written
explicitly by `load_data` and `rate_song`. -/
structure Row where
  idx : Option Val
  id : Option Val
  title : Option Val
  danceability : Option Val
  energy : Option Val
  key : Option Val
  loudness : Option Val
  mode : Option Val
  acousticness : Option Val
  instrumentalness : Option Val
  liveness : Option Val
  valence : Option Val
  tempo : Option Val
  duration_ms : Option Val
  time_signature : Option Val
  num_bars : Option Val
  num_sections : Option Val
  num_segments : Option Val
  class_label : Option Val
  star_rating : ℚ
deriving DecidableEq

/-- The rating overlay (`existing_ratings`): a Python dict built by the
comprehension `{row[0]: row[1] for row in cursor.fetchall()}`, so for a
duplicated key the *last* fetched row wins.  Lookup with default `0.0` is
`existing_ratings.get(song.get('id'), 0.0)`. -/
def overlayGet (ov : List (Option Val × ℚ)) (k : Option Val) : ℚ :=
  match ov.reverse.find? (fun p => p.1 == k) with
  | some p => p.2
  | none => 0

/-- `SELECT id, star_rating FROM songs WHERE star_rating > 0`, read in
row-scan order, paired into the overlay entries. -/
def buildOverlay (table : List Row) : List (Option Val × ℚ) :=
  (table.filter (fun r => 0 < r.star_rating)).map
    (fun r => (r.id, r.star_rating))

/-- One `INSERT INTO songs ... VALUES (?, ...)` of `load_data`: each column
is `song.get(column)`, and `star_rating` is the preserved overlay value (or
`0.0`) exactly as computed for `preserved_rating`. -/
def toRow (preserve : Bool) (ov : List (Option Val × ℚ))
    (song : SongDict) : Row where
  idx := recGet song "index"
  id := recGet song "id"
  title := recGet song "title"
  danceability := recGet song "danceability"
  energy := recGet song "energy"
  key := recGet song "key"
  loudness := recGet song "loudness"
  mode := recGet song "mode"
  acousticness := recGet song "acousticness"
  instrumentalness := recGet song "instrumentalness"
  liveness := recGet song "liveness"
  valence := recGet song "valence"
  tempo := recGet song "tempo"
  duration_ms := recGet song "duration_ms"
  time_signature := recGet song "time_signature"
  num_bars := recGet song "num_bars"
  num_sections := recGet song "num_sections"
  num_segments := recGet song "num_segments"
  class_label := recGet song "class_label"
  star_rating := if preserve then overlayGet ov (recGet song "id") else 0

/-- The structured failures of ingestion (§7): a missing snapshot path, an
unparseable snapshot, and a store failure during the destructive phase. -/
inductive LoadError where
  | not_found
  | malformed_input
  | store_error
deriving DecidableEq

/-- The insert loop of `load_data`, against the connection's uncommitted
working copy of the table.  `failAt = some pos` injects a store failure at
the `pos`-th insert (SQLite raising mid-loop); the function then returns
`none` and the caller never reaches `conn.commit()`. -/
def runInserts (acc : List Row) (pending : List Row) (failAt : Option Nat)
    (pos : Nat) : Option (List Row) :=
  match pending with
  | [] => some acc
  | r :: rest =>
    if failAt == some pos then none
    else runInserts (acc ++ [r]) rest failAt (pos + 1)

/-- `load_data` from `api.py`.  `parsed` is the outcome of
`open(file_path)` + `json.load` (which run before any store access):
`Except.error .not_found` for `FileNotFoundError`,
`Except.error .malformed_input` for `json.JSONDecodeError`.  On the happy
path the function normalizes, reads the rating overlay when
`preserve_ratings` is set, clears the working table (`DELETE FROM songs`),
runs the insert loop and finally commits: only then does the new table
become the visible store state.  If an insert raises, no commit ever runs,
so closing the connection rolls the whole uncommitted
delete-plus-inserts back and the previously committed table remains. -/
def load_data (parsed : Except LoadError Snapshot) (preserve : Bool)
    (table : List Row) (failAt : Option Nat) :
    List Row × Except LoadError Nat :=
  match parsed with
  | .error e => (table, .error e)
  | .ok j =>
    match runInserts [] ((normalize_json j).map
        (toRow preserve (if preserve then buildOverlay table else [])))
        failAt 0 with
    | some w => (w, .ok (normalize_json j).length)
    | none => (table, .error .store_error)

theorem runInserts_none (pending : List Row) (acc : List Row) (pos : Nat) :
    runInserts acc pending none pos = some (acc ++ pending) := by
  induction pending generalizing acc pos with
  | nil => simp [runInserts]
  | cons r rest ih => simp [runInserts, ih]

theorem runInserts_some (pending : List Row) (acc : List Row)
    (failAt : Option Nat) (pos : Nat) (w : List Row)
    (h : runInserts acc pending failAt pos = some w) : w = acc ++ pending := by
  induction pending generalizing acc pos with
  | nil => simp [runInserts] at h; simp [h.symm]
  | cons r rest ih =>
    by_cases hf : failAt == some pos
    · simp [runInserts, hf] at h
    · simp only [runInserts, hf, if_false] at h
      simpa using ih (acc ++ [r]) (pos + 1) h

/-- **C5**: ingestion is atomic from the caller's perspective.  A parse
failure (missing or malformed snapshot, raised before any store access)
aborts with that failure, leaving the store untouched.  A successful reload
leaves the table holding exactly one row per normalized record — in
particular nonempty for a nonempty snapshot — and reports the normalized
record count.  A store failure during the destructive clear-and-insert
phase (no commit ever runs) leaves the previously committed table entirely
intact: never a mix of old and new rows. -/
theorem C5_load_atomic (parsed : Except LoadError Snapshot) (preserve : Bool)
    (table : List Row) (failAt : Option Nat) :
    (∀ e, parsed = .error e →
      load_data parsed preserve table failAt = (table, .error e)) ∧
    (∀ j n, parsed = .ok j →
      (load_data parsed preserve table failAt).2 = .ok n →
      (load_data parsed preserve table failAt).1
          = (normalize_json j).map
              (toRow preserve (if preserve then buildOverlay table else [])) ∧
        n = (normalize_json j).length ∧
        (normalize_json j ≠ [] →
          (load_data parsed preserve table failAt).1 ≠ [])) ∧
    ((load_data parsed preserve table failAt).2 = .error .store_error →
      (load_data parsed preserve table failAt).1 = table) := by
  have hok_eq : ∀ j : Snapshot, load_data (.ok j) preserve table failAt =
      match runInserts [] ((normalize_json j).map
          (toRow preserve (if preserve then buildOverlay table else [])))
          failAt 0 with
      | some w => (w, .ok (normalize_json j).length)
      | none => (table, .error .store_error) := fun _ => rfl
  refine ⟨?_, ?_, ?_⟩
  · intro e he; subst he; rfl
  · intro j n hj hok
    subst hj
    rw [hok_eq j] at hok ⊢
    cases hrun : runInserts [] ((normalize_json j).map
        (toRow preserve (if preserve then buildOverlay table else [])))
        failAt 0 with
    | none =>
      rw [hrun] at hok
      exact absurd hok (by simp)
    | some w =>
      rw [hrun] at hok
      have hw := runInserts_some _ _ _ _ _ hrun
      simp only [List.nil_append] at hw
      subst hw
      refine ⟨rfl, ?_, ?_⟩
      · have h2 : Except.ok (ε := LoadError) (normalize_json j).length
            = Except.ok n := hok
        exact (Except.ok.inj h2).symm
      · intro hne
        simpa using hne
  · intro hst
    cases parsed with
    | error e => rfl
    | ok j =>
      rw [hok_eq j] at hst ⊢
      cases hrun : runInserts [] ((normalize_json j).map
          (toRow preserve (if preserve then buildOverlay table else [])))
          failAt 0 with
      | none => rfl
      | some w =>
        rw [hrun] at hst
        exact absurd hst (by simp)

/-- Witness for C5: freshly ingesting the one-song snapshot
`{"id": {"0": "a"}}` into an empty store succeeds and leaves a nonempty
table. -/
theorem C5_load_atomic_witness :
    (load_data (Except.ok [("id", [("0", Val.str "a")])]) false [] none).1
      ≠ [] := by
  have h := (C5_load_atomic (Except.ok [("id", [("0", Val.str "a")])])
    false [] none).2.1 [("id", [("0", Val.str "a")])] 1 rfl rfl
  exact h.2.2 (by decide)

/-- The failures of the rating endpoint: `HTTPException(400)` for an
out-of-range value and `HTTPException(404)` for an unknown id. -/
inductive RateError where
  | invalid_rating
  | not_found
deriving DecidableEq

/-- The SQL statements the endpoints execute against the `songs` table.
`selectOnly` carries the query text of a read-only `SELECT`; the other
constructors are the mutating statements of `load_data` and `rate_song`. -/
inductive Stmt where
  | selectOnly : String → Stmt
  | deleteAll : Stmt
  | insertRow : Row → Stmt
  | updateRating : String → ℚ → Stmt

/-- Effect of one statement on the stored table.  A `SELECT` reads and
leaves the table as it is; `DELETE FROM songs` empties it; an `INSERT`
appends; `UPDATE songs SET star_rating = ? WHERE id = ?` sets the rating of
every row whose `id` equals the bound text parameter (a NULL id never
equals a text parameter in SQLite, matching `none ≠ some _` here). -/
def execStmt (t : List Row) : Stmt → List Row
  | .selectOnly _ => t
  | .deleteAll => []
  | .insertRow r => t ++ [r]
  | .updateRating sid v =>
      t.map (fun r => if r.id == some (Val.str sid)
        then { r with star_rating := v } else r)

/-- Run a statement sequence in order. -/
def execStmts (t : List Row) (ss : List Stmt) : List Row :=
  ss.foldl execStmt t

/-- `rate_song` from `api.py`: the range check `0 <= rating <= 5` runs
before any store access; then the `UPDATE` runs and `cursor.rowcount`
(the number of rows whose `id` matched) is inspected — zero rows means the
connection is closed without commit (the no-op update is discarded) and
"Song not found" is raised; otherwise the update is committed and the
rating returned. -/
def rate_song (table : List Row) (song_id : String) (rating : ℚ) :
    List Row × Except RateError ℚ :=
  if ¬ (0 ≤ rating ∧ rating ≤ 5) then (table, .error .invalid_rating)
  else if table.countP (fun r => r.id == some (Val.str song_id)) = 0 then
    (table, .error .not_found)
  else (execStmt table (.updateRating song_id rating), .ok rating)

/-- **C4**: rating a song fails with `invalid_rating` when the value lies
outside `[0,5]`, with the store unchanged (the check precedes any store
access); fails with `not_found` when no row's `id` matches (zero rows
affected), again with the store unchanged; and on success returns the new
rating, which is stored on every matched row. -/
theorem C4_rate_errors (table : List Row) (sid : String) (r : ℚ) :
    (¬ (0 ≤ r ∧ r ≤ 5) →
      rate_song table sid r = (table, .error .invalid_rating)) ∧
    ((0 ≤ r ∧ r ≤ 5) →
      table.countP (fun row => row.id == some (Val.str sid)) = 0 →
      rate_song table sid r = (table, .error .not_found)) ∧
    ((0 ≤ r ∧ r ≤ 5) →
      table.countP (fun row => row.id == some (Val.str sid)) ≠ 0 →
      (rate_song table sid r).2 = .ok r ∧
      ∀ row ∈ (rate_song table sid r).1,
        row.id = some (Val.str sid) → row.star_rating = r) := by
  refine ⟨?_, ?_, ?_⟩
  · intro h; simp [rate_song, h]
  · intro h1 h2; simp [rate_song, h1, h2]
  · intro h1 h2
    have hrs : rate_song table sid r
        = (execStmt table (.updateRating sid r), .ok r) := by
      simp [rate_song, h1, h2]
    rw [hrs]
    refine ⟨rfl, ?_⟩
    intro row hrow hid
    simp only [execStmt, List.mem_map] at hrow
    rcases hrow with ⟨r0, hr0, rfl⟩
    by_cases hc : r0.id == some (Val.str sid)
    · simp [hc]
    · rw [if_neg hc] at hid ⊢
      exact absurd (beq_iff_eq.mpr hid) hc

/-- A concrete row: the given `idx`, `id` and `star_rating`, every other
column NULL. -/
def mkRow (i : ℚ) (sid : String) (st : ℚ) : Row :=
  ⟨some (Val.num i), some (Val.str sid), none, none, none, none, none, none,
   none, none, none, none, none, none, none, none, none, none, none, st⟩

/-- Witness for C4 on a one-row table: rating 6 is rejected as invalid with
the store unchanged, an unknown id is rejected as not found with the store
unchanged, and rating 4 succeeds and is returned. -/
theorem C4_rate_errors_witness :
    rate_song [mkRow 0 "a" 0] "a" 6
        = ([mkRow 0 "a" 0], .error .invalid_rating) ∧
    rate_song [mkRow 0 "a" 0] "b" 4
        = ([mkRow 0 "a" 0], .error .not_found) ∧
    (rate_song [mkRow 0 "a" 0] "a" 4).2 = .ok 4 :=
  ⟨(C4_rate_errors [mkRow 0 "a" 0] "a" 6).1 (by norm_num),
   (C4_rate_errors [mkRow 0 "a" 0] "b" 4).2.1 (by norm_num) (by decide),
   ((C4_rate_errors [mkRow 0 "a" 0] "a" 4).2.2 (by norm_num) (by decide)).1⟩

/-- C8 fails as stated: on a table with two rows sharing id `"a"` (both
rated 0), `rate_song "a" 3` updates *both* rows — the SQL `UPDATE ...
WHERE id = ?` touches every match, not only the first one, so the second
row's rating changes from 0 to 3 as well. -/
theorem C8_counterexample :
    ((rate_song [mkRow 0 "a" 0, mkRow 1 "a" 0] "a" 3).1.map Row.star_rating)
        = [3, 3] ∧
    (mkRow 1 "a" 0).star_rating = 0 ∧ (3 : ℚ) ≠ 0 := by
  refine ⟨by decide, rfl, by norm_num⟩

/-- **C8** (amended): with duplicate ids, the overlay built by
preserve-ratings ingestion gives, for each id, the rating of the *last*
read row with a positive rating (the dict comprehension's last write wins);
and the rating update touches *every* matching record, not only the first:
each matched position holds the new rating afterwards. -/
theorem C8_duplicates (table : List Row) (k : Option Val) (sid : String)
    (r : ℚ) (pre post : List Row) (rlast : Row) :
    (table = pre ++ rlast :: post → rlast.id = k → 0 < rlast.star_rating →
      (∀ row ∈ post, row.id = k → ¬ 0 < row.star_rating) →
      overlayGet (buildOverlay table) k = rlast.star_rating) ∧
    (0 ≤ r → r ≤ 5 → ∀ n, ∀ hn : n < table.length,
      (table.get ⟨n, hn⟩).id = some (Val.str sid) →
      ((rate_song table sid r).1)[n]?.map Row.star_rating = some r) := by
  constructor
  · intro htab hid hpos hlater
    subst htab
    rw [buildOverlay]
    rw [List.filter_append, List.map_append, List.filter_cons_of_pos
      (by simpa using hpos), List.map_cons]
    rw [overlayGet, List.reverse_append, List.reverse_cons, List.append_assoc]
    rw [List.find?_append]
    have hnone : ((List.filter (fun r => 0 < r.star_rating) post).map
        (fun r => (r.id, r.star_rating))).reverse.find?
        (fun p => p.1 == k) = none := by
      rw [List.find?_eq_none]
      intro p hp
      rw [List.mem_reverse, List.mem_map] at hp
      rcases hp with ⟨row, hrow, rfl⟩
      rw [List.mem_filter] at hrow
      simp only [beq_iff_eq]
      intro hpk
      exact hlater row hrow.1 hpk (by simpa using hrow.2)
    rw [hnone]
    simp [hid]
  · intro h0 h5 n hn hidn
    have hrs : rate_song table sid r
        = (execStmt table (.updateRating sid r), .ok r) := by
      have hcp : table.countP (fun row => row.id == some (Val.str sid)) ≠ 0 := by
        intro hz
        rw [List.countP_eq_zero] at hz
        exact hz _ (table.get_mem _ _) (beq_iff_eq.mpr hidn)
      simp [rate_song, h0, h5, hcp]
    rw [hrs]
    have hidn2 : table[n].id = some (Val.str sid) := by
      simpa [List.get_eq_getElem] using hidn
    simp only [execStmt, List.getElem?_map]
    rw [List.getElem?_eq_getElem hn]
    simp only [Option.map_some']
    rw [if_pos (beq_iff_eq.mpr hidn2)]

/-- Witness for C8 (amended): on `[("a",2), ("a",3)]` the overlay keeps the
last row's rating 3; and updating id `"a"` to 4 rewrites the rating at
position 1 (a non-first match). -/
theorem C8_duplicates_witness :
    overlayGet (buildOverlay [mkRow 0 "a" 2, mkRow 1 "a" 3])
        (some (Val.str "a")) = 3 ∧
    ((rate_song [mkRow 0 "a" 2, mkRow 1 "a" 3] "a" 4).1)[1]?.map
        Row.star_rating = some 4 :=
  ⟨(C8_duplicates [mkRow 0 "a" 2, mkRow 1 "a" 3] (some (Val.str "a")) "a" 4
      [mkRow 0 "a" 2] [] (mkRow 1 "a" 3)).1 rfl rfl (by decide)
      (by intro row h; cases h),
   (C8_duplicates [mkRow 0 "a" 2, mkRow 1 "a" 3] (some (Val.str "a")) "a" 4
      [mkRow 0 "a" 2] [] (mkRow 1 "a" 3)).2 (by norm_num) (by norm_num) 1
      (by decide) (by decide)⟩

theorem load_data_none (j : Snapshot) (preserve : Bool) (table : List Row) :
    load_data (.ok j) preserve table none
      = ((normalize_json j).map
          (toRow preserve (if preserve then buildOverlay table else [])),
         .ok (normalize_json j).length) := by
  show (match runInserts [] ((normalize_json j).map
      (toRow preserve (if preserve then buildOverlay table else []))) none 0 with
    | some w => (w, Except.ok (normalize_json j).length)
    | none => (table, Except.error LoadError.store_error)) = _
  rw [runInserts_none]
  simp

theorem overlayGet_of_all (ov : List (Option Val × ℚ)) (kk : Option Val)
    (r : ℚ) (hall : ∀ p ∈ ov, p = (kk, r)) (hne : ov ≠ []) :
    overlayGet ov kk = r := by
  have hfind : ov.reverse.find? (fun p => p.1 == kk) = some (kk, r) := by
    cases hrev : ov.reverse with
    | nil => exact absurd (List.reverse_eq_nil_iff.mp hrev) hne
    | cons q qs =>
      have hq : q ∈ ov := by
        rw [← List.mem_reverse, hrev]; exact List.mem_cons_self _ _
      rw [hall q hq, List.find?_cons_of_pos _ (by simp)]
  simp [overlayGet, hfind]

theorem overlayGet_of_none (ov : List (Option Val × ℚ)) (kk : Option Val)
    (hnone : ∀ p ∈ ov, p.1 ≠ kk) : overlayGet ov kk = 0 := by
  have hfind : ov.reverse.find? (fun p => p.1 == kk) = none := by
    rw [List.find?_eq_none]
    intro p hp
    simp only [beq_iff_eq]
    exact hnone p (List.mem_reverse.mp hp)
  simp [overlayGet, hfind]

/-- **C3**: round-trip with rating preservation.  Ingest a snapshot with
preserve-ratings disabled, rate the one song whose id is `sid` (the
hypothesis `huniq` says exactly one normalized record carries that id —
"rating exactly one song by id"), then re-ingest the same snapshot with
preserve-ratings enabled: the rating succeeds, the rated song's stored
`star_rating` equals the rated value, and every other song's `star_rating`
is `0.0`. -/
theorem C3_round_trip (j : Snapshot) (state0 : List Row) (sid : String)
    (r : ℚ) (hr0 : 0 ≤ r) (hr5 : r ≤ 5)
    (huniq : (normalize_json j).countP
        (fun s => recGet s "id" == some (Val.str sid)) = 1) :
    (rate_song ((load_data (Except.ok j) false state0 none).1) sid r).2
        = .ok r ∧
    ∀ row ∈ (load_data (Except.ok j) true
        ((rate_song ((load_data (Except.ok j) false state0 none).1) sid r).1)
        none).1,
      (row.id = some (Val.str sid) → row.star_rating = r) ∧
      (row.id ≠ some (Val.str sid) → row.star_rating = 0) := by
  have ht1 : (load_data (Except.ok j) false state0 none).1
      = (normalize_json j).map (toRow false []) := by
    rw [load_data_none]; simp
  have hcp : ((normalize_json j).map (toRow false [])).countP
      (fun row => row.id == some (Val.str sid)) = 1 := by
    rw [List.countP_map]
    exact huniq
  have hguard : ¬ ¬ (0 ≤ r ∧ r ≤ 5) := not_not_intro ⟨hr0, hr5⟩
  have hrate : rate_song ((load_data (Except.ok j) false state0 none).1) sid r
      = ((normalize_json j).map
          ((fun r0 => if r0.id == some (Val.str sid)
              then { r0 with star_rating := r } else r0)
            ∘ toRow false []), .ok r) := by
    rw [ht1]
    simp only [rate_song, hguard, if_false, hcp, execStmt]
    rw [if_neg one_ne_zero, List.map_map]
  have ht3 : (load_data (Except.ok j) true
      ((rate_song ((load_data (Except.ok j) false state0 none).1) sid r).1)
      none).1
      = (normalize_json j).map (toRow true (buildOverlay ((normalize_json j).map
          ((fun r0 => if r0.id == some (Val.str sid)
              then { r0 with star_rating := r } else r0)
            ∘ toRow false [])))) := by
    rw [hrate, load_data_none]
    simp
  have hall : ∀ p ∈ buildOverlay ((normalize_json j).map
      ((fun r0 => if r0.id == some (Val.str sid)
          then { r0 with star_rating := r } else r0)
        ∘ toRow false [])), p = (some (Val.str sid), r) := by
    intro p hp
    rw [buildOverlay, List.mem_map] at hp
    rcases hp with ⟨row, hrow, rfl⟩
    rw [List.mem_filter, List.mem_map] at hrow
    rcases hrow with ⟨⟨s, hs, rfl⟩, hpos⟩
    by_cases hc : (toRow false [] s).id == some (Val.str sid)
    · simp only [Function.comp_apply, hc, if_true]
      simp [beq_iff_eq.mp hc]
    · exfalso
      simp only [Function.comp_apply, hc, Bool.false_eq_true, if_false] at hpos
      simp [toRow] at hpos
  have hex : 0 < r → buildOverlay ((normalize_json j).map
      ((fun r0 => if r0.id == some (Val.str sid)
          then { r0 with star_rating := r } else r0)
        ∘ toRow false [])) ≠ [] := by
    intro hrpos hemp
    have h1 : 0 < (normalize_json j).countP
        (fun s => recGet s "id" == some (Val.str sid)) := by
      rw [huniq]; norm_num
    rw [List.countP_pos_iff] at h1
    rcases h1 with ⟨s, hs, hpred⟩
    have hcid : (toRow false [] s).id == some (Val.str sid) := hpred
    have hmem : ((fun r0 => if r0.id == some (Val.str sid)
          then { r0 with star_rating := r } else r0) ∘ toRow false []) s
        ∈ (normalize_json j).map
          ((fun r0 => if r0.id == some (Val.str sid)
              then { r0 with star_rating := r } else r0) ∘ toRow false []) :=
      List.mem_map_of_mem _ hs
    have hfmem : ((fun r0 => if r0.id == some (Val.str sid)
          then { r0 with star_rating := r } else r0) ∘ toRow false []) s
        ∈ List.filter (fun row => 0 < row.star_rating)
          ((normalize_json j).map
            ((fun r0 => if r0.id == some (Val.str sid)
                then { r0 with star_rating := r } else r0) ∘ toRow false [])) := by
      rw [List.mem_filter]
      refine ⟨hmem, ?_⟩
      simp only [Function.comp_apply, hcid, if_true]
      simpa using hrpos
    have : (((fun r0 => if r0.id == some (Val.str sid)
          then { r0 with star_rating := r } else r0) ∘ toRow false []) s).id
        ∈ List.map Prod.fst (buildOverlay ((normalize_json j).map
          ((fun r0 => if r0.id == some (Val.str sid)
              then { r0 with star_rating := r } else r0) ∘ toRow false []))) := by
      rw [buildOverlay, List.map_map]
      exact List.mem_map_of_mem _ hfmem
    rw [hemp] at this
    cases this
  refine ⟨by rw [hrate], ?_⟩
  intro row hrow
  rw [ht3, List.mem_map] at hrow
  rcases hrow with ⟨s, hs, rfl⟩
  have hid : (toRow true (buildOverlay ((normalize_json j).map
      ((fun r0 => if r0.id == some (Val.str sid)
          then { r0 with star_rating := r } else r0)
        ∘ toRow false []))) s).id = recGet s "id" := rfl
  have hstar : (toRow true (buildOverlay ((normalize_json j).map
      ((fun r0 => if r0.id == some (Val.str sid)
          then { r0 with star_rating := r } else r0)
        ∘ toRow false []))) s).star_rating
      = overlayGet (buildOverlay ((normalize_json j).map
          ((fun r0 => if r0.id == some (Val.str sid)
              then { r0 with star_rating := r } else r0)
            ∘ toRow false []))) (recGet s "id") := rfl
  constructor
  · intro hKid
    rw [hid] at hKid
    rw [hstar, hKid]
    rcases eq_or_lt_of_le hr0 with hz | hpos
    · cases hov : buildOverlay ((normalize_json j).map
          ((fun r0 => if r0.id == some (Val.str sid)
              then { r0 with star_rating := r } else r0)
            ∘ toRow false [])) with
      | nil => exact hz
      | cons q qs =>
        rw [← hov]
        exact overlayGet_of_all _ _ _ hall (by rw [hov]; simp)
    · exact overlayGet_of_all _ _ _ hall (hex hpos)
  · intro hKid
    rw [hid] at hKid
    rw [hstar]
    apply overlayGet_of_none
    intro p hp
    rw [hall p hp]
    intro he
    exact hKid he.symm

/-- Witness for C3 at the spec §8 snapshot: ingest
`{"id": {"0": "a", "1": "b"}, "title": {"0": "X", "1": "Y"}}` fresh, rate
song "a" with 4, re-ingest preserving: every stored row has rating 4 if its
id is "a" and 0 otherwise. -/
theorem C3_round_trip_witness :
    ((load_data (Except.ok [("id", [("0", Val.str "a"), ("1", Val.str "b")]),
        ("title", [("0", Val.str "X"), ("1", Val.str "Y")])]) true
      ((rate_song ((load_data (Except.ok [("id", [("0", Val.str "a"),
          ("1", Val.str "b")]), ("title", [("0", Val.str "X"),
          ("1", Val.str "Y")])]) false [] none).1) "a" 4).1)
      none).1.all (fun row =>
        ((!(row.id == some (Val.str "a"))) || (row.star_rating == 4)) &&
        ((row.id == some (Val.str "a")) || (row.star_rating == 0)))) = true := by
  have h := C3_round_trip
    [("id", [("0", Val.str "a"), ("1", Val.str "b")]),
     ("title", [("0", Val.str "X"), ("1", Val.str "Y")])]
    [] "a" 4 (by norm_num) (by norm_num) (by decide)
  rw [List.all_eq_true]
  intro row hrow
  have h2 := h.2 row hrow
  by_cases hc : row.id = some (Val.str "a")
  · simp [hc, h2.1 hc]
  · simp [hc, h2.2 hc]

/-- SQLite's ordering of the `idx` column for `ORDER BY idx`: NULL sorts
before every value, numbers before text, numbers by value, text by byte
order (which for UTF-8 agrees with codepoint-lexicographic `≤`). -/
def sqliteLe : Option Val → Option Val → Bool
  | none, _ => true
  | some _, none => false
  | some (.str x), some (.str y) => decide (x ≤ y)
  | some (.str _), some (.num _) => false
  | some (.num _), some (.str _) => true
  | some (.num x), some (.num y) => decide (x ≤ y)

/-- Row comparison used by `ORDER BY idx`. -/
def rowLe (a b : Row) : Bool := sqliteLe a.idx b.idx

theorem sqliteLe_total (a b : Option Val) :
    sqliteLe a b = true ∨ sqliteLe b a = true := by
  rcases a with _ | (x | x) <;> rcases b with _ | (y | y) <;>
    simp only [sqliteLe, decide_eq_true_eq, Bool.false_eq_true] <;>
    first
      | exact Or.inl trivial
      | exact Or.inr trivial
      | exact le_total x y

theorem sqliteLe_trans (a b c : Option Val) (h1 : sqliteLe a b = true)
    (h2 : sqliteLe b c = true) : sqliteLe a c = true := by
  rcases a with _ | (x | x) <;> rcases b with _ | (y | y) <;>
    rcases c with _ | (z | z) <;>
    simp only [sqliteLe, decide_eq_true_eq, Bool.false_eq_true] at h1 h2 ⊢ <;>
    first
      | trivial
      | exact h1.elim
      | exact h2.elim
      | exact h1
      | exact h2
      | exact le_trans h1 h2

theorem rowLe_total (a b : Row) : rowLe a b = true ∨ rowLe b a = true :=
  sqliteLe_total a.idx b.idx

theorem rowLe_trans (a b c : Row) (h1 : rowLe a b = true)
    (h2 : rowLe b c = true) : rowLe a c = true :=
  sqliteLe_trans a.idx b.idx c.idx h1 h2

/-- One step of the sort modelling `ORDER BY idx`: insert a row into an
already sorted list. -/
def insertSorted (r : Row) : List Row → List Row
  | [] => [r]
  | x :: xs => if rowLe r x then r :: x :: xs else x :: insertSorted r xs

/-- The key-ordered read `SELECT * FROM songs ORDER BY idx`: a sorted
permutation of the stored rows (insertion sort as the deterministic model
of the store's order-by; `idx` is the INTEGER PRIMARY KEY, so ties cannot
arise on real tables and any sorted permutation is the same). -/
def orderByIdx : List Row → List Row
  | [] => []
  | x :: xs => insertSorted x (orderByIdx xs)

/-- `get_all_songs` from `api.py`:
`SELECT * FROM songs ORDER BY idx LIMIT limit OFFSET (page-1)*limit`. -/
def get_all_songs (table : List Row) (page limit : Nat) : List Row :=
  ((orderByIdx table).drop ((page - 1) * limit)).take limit

theorem mem_insertSorted (r y : Row) (l : List Row) :
    y ∈ insertSorted r l ↔ y = r ∨ y ∈ l := by
  induction l with
  | nil => simp [insertSorted]
  | cons x xs ih =>
    rw [insertSorted]
    by_cases hc : rowLe r x = true
    · rw [if_pos hc]
      simp [List.mem_cons]
    · rw [if_neg hc, List.mem_cons, ih, List.mem_cons]
      tauto

theorem insertSorted_perm (r : Row) (l : List Row) :
    (insertSorted r l).Perm (r :: l) := by
  induction l with
  | nil => simp [insertSorted]
  | cons x xs ih =>
    by_cases hc : rowLe r x = true
    · simp [insertSorted, hc]
    · rw [insertSorted, if_neg hc]
      exact (ih.cons x).trans (List.Perm.swap r x xs)

theorem orderByIdx_perm (l : List Row) : (orderByIdx l).Perm l := by
  induction l with
  | nil => simp [orderByIdx]
  | cons x xs ih =>
    exact (insertSorted_perm x (orderByIdx xs)).trans (ih.cons x)

theorem insertSorted_pairwise (r : Row) (l : List Row)
    (h : l.Pairwise (fun a b => rowLe a b = true)) :
    (insertSorted r l).Pairwise (fun a b => rowLe a b = true) := by
  induction l with
  | nil => simp [insertSorted]
  | cons x xs ih =>
    rw [List.pairwise_cons] at h
    by_cases hc : rowLe r x = true
    · rw [insertSorted, if_pos hc, List.pairwise_cons]
      constructor
      · intro y hy
        rcases List.mem_cons.mp hy with rfl | hy2
        · exact hc
        · exact rowLe_trans r x y hc (h.1 y hy2)
      · rw [List.pairwise_cons]
        exact h
    · rw [insertSorted, if_neg hc, List.pairwise_cons]
      constructor
      · intro y hy
        rcases (mem_insertSorted r y xs).mp hy with hyr | hy2
        · rcases rowLe_total r x with hrx | hxr
          · exact absurd hrx hc
          · rw [hyr]; exact hxr
        · exact h.1 y hy2
      · exact ih h.2

theorem orderByIdx_pairwise (l : List Row) :
    (orderByIdx l).Pairwise (fun a b => rowLe a b = true) := by
  induction l with
  | nil => simp [orderByIdx]
  | cons x xs ih => exact insertSorted_pairwise x (orderByIdx xs) ih

/-- **C7**: for validated `page ≥ 1` and `limit ∈ [1,100]`, `get_all_songs`
reads the rows ordered by `idx` ascending (a sorted permutation of the
table), skips the first `(page-1)*limit` of them, returns at most `limit`,
and returns the empty sequence — not an error — when the offset is at or
beyond the number of stored rows. -/
theorem C7_pagination (table : List Row) (page limit : Nat)
    (_hp : 1 ≤ page) (_hl1 : 1 ≤ limit) (_hl2 : limit ≤ 100) :
    (orderByIdx table).Perm table ∧
    (orderByIdx table).Pairwise (fun a b => rowLe a b = true) ∧
    get_all_songs table page limit
      = ((orderByIdx table).drop ((page - 1) * limit)).take limit ∧
    (get_all_songs table page limit).length ≤ limit ∧
    (table.length ≤ (page - 1) * limit →
      get_all_songs table page limit = []) := by
  refine ⟨orderByIdx_perm table, orderByIdx_pairwise table, rfl, ?_, ?_⟩
  · exact List.length_take_le _ _
  · intro hoff
    rw [get_all_songs, List.drop_eq_nil_of_le
      (by rw [(orderByIdx_perm table).length_eq]; exact hoff)]
    exact List.take_nil

/-- Witness for C7 on the two-row table `[idx 1, idx 0]`: page 2 with limit
1 returns the drop-1/take-1 window of the idx-sorted rows, its length is at
most 1, and page 3 (offset 2, at the table size) returns `[]`. -/
theorem C7_pagination_witness :
    get_all_songs [mkRow 1 "b" 0, mkRow 0 "a" 0] 2 1
        = ((orderByIdx [mkRow 1 "b" 0, mkRow 0 "a" 0]).drop 1).take 1 ∧
    (get_all_songs [mkRow 1 "b" 0, mkRow 0 "a" 0] 2 1).length ≤ 1 ∧
    get_all_songs [mkRow 1 "b" 0, mkRow 0 "a" 0] 3 1 = [] := by
  have h2 := C7_pagination [mkRow 1 "b" 0, mkRow 0 "a" 0] 2 1
    (by norm_num) (by norm_num) (by norm_num)
  have h3 := C7_pagination [mkRow 1 "b" 0, mkRow 0 "a" 0] 3 1
    (by norm_num) (by norm_num) (by norm_num)
  exact ⟨h2.2.2.1, h2.2.2.2.1, h3.2.2.2.2 (by norm_num)⟩

/-- `search_by_title` from `api.py`:
`SELECT * FROM songs WHERE title = ?` — exact, case-sensitive equality on
the bound text parameter; a NULL title never matches. -/
def search_by_title (table : List Row) (title : String) : List Row :=
  table.filter (fun r => r.title == some (Val.str title))

/-- The statement trace `get_all_songs` executes: exactly one read-only
`SELECT`, built from the f-string with the computed limit and offset. -/
def get_all_songs_stmts (page limit : Nat) : List Stmt :=
  [Stmt.selectOnly ("SELECT * FROM songs ORDER BY idx LIMIT "
    ++ toString limit ++ " OFFSET " ++ toString ((page - 1) * limit))]

/-- The statement trace `search_by_title` executes: exactly one
parameterized read-only `SELECT`. -/
def search_by_title_stmts (title : String) : List Stmt :=
  [Stmt.selectOnly ("SELECT * FROM songs WHERE title = ? -- " ++ title)]

/-- **C10** (frame property): running the statement traces of
`get_all_songs` and `search_by_title` — each a single read-only `SELECT` —
leaves the songs table unchanged for every store state and every input: the
stored rows, including every `star_rating`, are identical before and after
the call. -/
theorem C10_queries_frame (table : List Row) (page limit : Nat)
    (title : String) :
    execStmts table (get_all_songs_stmts page limit) = table ∧
    execStmts table (search_by_title_stmts title) = table ∧
    (execStmts table (get_all_songs_stmts page limit)).map Row.star_rating
      = table.map Row.star_rating ∧
    (execStmts table (search_by_title_stmts title)).map Row.star_rating
      = table.map Row.star_rating := by
  refine ⟨rfl, rfl, rfl, rfl⟩

end Vivpro
